import Mathlib

/-!
Verification development for the live voice session core
(src/services/liveService.ts and src/App.tsx).

The TypeScript source is shallowly embedded: pure helpers become Lean
functions on ℚ / ℤ / ℕ (every float operation on the audio path —
multiplying a sample by 32768, truncating to an integer, dividing an
int16 by 32768 — is exact in IEEE double and float32, so rational
arithmetic is a faithful model), and the stateful service becomes
explicit state passing together with lists of emitted side effects.
-/

/-! ## JS numeric conversions -/

/-- Truncation toward zero, as performed by the ToIntegerOrInfinity step of
the ECMAScript ToInt16 conversion that runs when a number is stored into an
`Int16Array` element (`int16[i] = data[i] * 32768` in `createBlob`). -/
def ratTrunc (x : ℚ) : ℤ :=
  if 0 ≤ x then ⌊x⌋ else ⌈x⌉

/-- The wrap-around step of ECMAScript ToInt16: reduce modulo 2^16 into
[0, 2^16) and reinterpret values ≥ 2^15 as negative. -/
def wrapInt16 (m : ℤ) : ℤ :=
  let r := m % 65536
  if r < 32768 then r else r - 65536

/-- Per-sample encoder of `createBlob` (src/services/liveService.ts):
`int16[i] = data[i] * 32768` stores via ToInt16, i.e. truncate toward zero
and wrap modulo 2^16. -/
def encodeSample (s : ℚ) : ℤ :=
  wrapInt16 (ratTrunc (s * 32768))

/-- Per-sample decoder of `decodeAudioData` (src/services/liveService.ts):
`channelData[i] = dataInt16[i] / 32768.0`. -/
def decodeSample (v : ℤ) : ℚ :=
  (v : ℚ) / 32768

/-- Reassemble a little-endian int16 from two bytes, as reading the
`Uint8Array` buffer through an `Int16Array` view does. -/
def int16OfLE (lo hi : ℕ) : ℤ :=
  wrapInt16 (lo + 256 * hi)

/-- Pairwise little-endian int16 view of a byte list (`new Int16Array(buffer)`
on an even-length buffer). -/
def bytesToInt16LE : List ℕ → List ℤ
  | lo :: hi :: rest => int16OfLE lo hi :: bytesToInt16LE rest
  | _ => []

/-- `decodeAudioData` (src/services/liveService.ts) with numChannels = 1:
`new Int16Array(data.buffer)` throws a RangeError when the byte length is
not a multiple of 2 (`none` here); otherwise every int16 sample is
normalized by division by 32768. -/
def decodeAudioDataS (bytes : List ℕ) : Option (List ℚ) :=
  if bytes.length % 2 = 0 then
    some ((bytesToInt16LE bytes).map (fun v => (v : ℚ) / 32768))
  else
    none

/-! ## Base64 (browser btoa / atob on binary strings)

`encode` in src/services/liveService.ts builds a binary string from the
bytes (all char codes < 256) and calls `btoa`; `decode` calls `atob` and
reads the char codes back. We model the byte level directly: `btoaB` is
`btoa` on a byte list and `atobB` is `atob` restricted to the canonical
padded alphabet strings that `btoa` emits (other inputs fail with `none`,
as `atob` throws on them). -/

/-- The RFC 4648 base64 alphabet used by btoa/atob. -/
def b64Table : List Char :=
  ['A', 'B', 'C', 'D', 'E', 'F', 'G', 'H', 'I', 'J', 'K', 'L', 'M',
   'N', 'O', 'P', 'Q', 'R', 'S', 'T', 'U', 'V', 'W', 'X', 'Y', 'Z',
   'a', 'b', 'c', 'd', 'e', 'f', 'g', 'h', 'i', 'j', 'k', 'l', 'm',
   'n', 'o', 'p', 'q', 'r', 's', 't', 'u', 'v', 'w', 'x', 'y', 'z',
   '0', '1', '2', '3', '4', '5', '6', '7', '8', '9', '+', '/']

/-- Index into the base64 alphabet. -/
def b64Char (n : ℕ) : Char :=
  b64Table.getD n 'A'

/-- Inverse alphabet lookup; `none` for characters outside the alphabet
(in particular for the padding character). -/
def charVal (c : Char) : Option ℕ :=
  b64Table.findIdx? (fun x => x == c)

/-- `btoa` on a byte list: 3 bytes become 4 alphabet characters, a final
group of 1 or 2 bytes is padded with one or two padding characters. -/
def btoaB : List ℕ → List Char
  | [] => []
  | [b0] =>
      [b64Char (b0 / 4), b64Char (b0 % 4 * 16), '=', '=']
  | [b0, b1] =>
      [b64Char (b0 / 4), b64Char (b0 % 4 * 16 + b1 / 16),
       b64Char (b1 % 16 * 4), '=']
  | b0 :: b1 :: b2 :: rest =>
      b64Char (b0 / 4) :: b64Char (b0 % 4 * 16 + b1 / 16) ::
      b64Char (b1 % 16 * 4 + b2 / 64) :: b64Char (b2 % 64) :: btoaB rest

/-- `atob` on the canonical padded strings `btoa` emits, yielding the byte
list; every other input fails with `none` (the browser throws an
InvalidCharacterError). -/
def atobB : List Char → Option (List ℕ)
  | [] => some []
  | c0 :: c1 :: c2 :: c3 :: rest =>
      match charVal c0, charVal c1 with
      | some v0, some v1 =>
          if c2 = '=' then
            if c3 = '=' ∧ rest = [] then some [v0 * 4 + v1 / 16] else none
          else
            match charVal c2 with
            | some v2 =>
                if c3 = '=' then
                  if rest = [] then
                    some [v0 * 4 + v1 / 16, v1 % 16 * 16 + v2 / 4]
                  else none
                else
                  match charVal c3, atobB rest with
                  | some v3, some tl =>
                      some ((v0 * 4 + v1 / 16) :: (v1 % 16 * 16 + v2 / 4) ::
                            (v2 % 4 * 64 + v3) :: tl)
                  | _, _ => none
            | none => none
      | _, _ => none
  | _ => none

/-! ## Playback scheduler (playAudioChunk / stopAudioPlayback) -/

/-- The scheduler-relevant fields of `LiveService`: `nextStartTime` and the
set of active `AudioBufferSourceNode`s, modelled as the list of their
identifiers in creation order. -/
structure SchedState where
  nextStartTime : ℚ
  sources : List ℕ
  deriving DecidableEq

/-- Duration of a mono audio buffer of `frames` frames at the 24 kHz output
rate (`audioBuffer.duration`). -/
def bufDuration (frames : ℕ) : ℚ :=
  (frames : ℚ) / 24000

/-- The scheduling core of `playAudioChunk` (src/services/liveService.ts):
`nextStartTime = max(nextStartTime, currentTime)`, start the source at that
time, then `nextStartTime += duration`. Returns the new state and the start
time handed to `source.start`. `now` is `outputAudioContext.currentTime`,
`frames` the decoded frame count, `src` the fresh source identifier. -/
def playAudioChunkS (st : SchedState) (now : ℚ) (frames : ℕ) (src : ℕ) :
    SchedState × ℚ :=
  let t := max st.nextStartTime now
  (⟨t + bufDuration frames, st.sources ++ [src]⟩, t)

/-- `stopAudioPlayback` (src/services/liveService.ts): stop every active
source, clear the set, and set `nextStartTime = 0`. -/
def stopAudioPlaybackS (_ : SchedState) : SchedState :=
  ⟨0, []⟩

/-- The scheduler operations the spec quantifies over: scheduling one chunk,
the interrupt reset, and the scheduler-visible part of `cleanup()`. -/
inductive SchedOp
  | schedule (now : ℚ) (frames : ℕ) (src : ℕ)
  | interrupt
  | cleanupOp
  deriving DecidableEq

/-- Effect of one operation on the scheduler state. `cleanup()` in the
source begins by calling `stopAudioPlayback()`, so its effect on the
scheduler fields is exactly the interrupt reset. -/
def applySchedOp (st : SchedState) : SchedOp → SchedState
  | .schedule now frames src => (playAudioChunkS st now frames src).1
  | .interrupt => stopAudioPlaybackS st
  | .cleanupOp => stopAudioPlaybackS st

/-! ## Service resource state, cleanup and disconnect -/

/-- The resource-holding fields of `LiveService`: each Bool records whether
the corresponding nullable field is currently non-null, plus the scheduler
state (whose `sources` are the active output source nodes). -/
structure ServiceState where
  session : Bool
  inputCtx : Bool
  outputCtx : Bool
  stream : Bool
  processor : Bool
  sourceNode : Bool
  sched : SchedState
  deriving DecidableEq

/-- The externally visible release effects of teardown. -/
inductive ReleaseAct
  | stopSource (src : ℕ)
  | disconnectProcessor
  | disconnectSourceNode
  | stopMicTracks
  | closeInputCtx
  | closeOutputCtx
  | closeSession
  deriving DecidableEq

/-- `cleanup()` (src/services/liveService.ts): `stopAudioPlayback()` stops
every active source and clears the set, then each held resource field is
released and nulled in order (processor, sourceNode, stream, input context,
output context), and finally `session = null` (dropped without a close
call). Returns the new state and the list of release effects in program
order. -/
def cleanupS (st : ServiceState) : ServiceState × List ReleaseAct :=
  (⟨false, false, false, false, false, false, ⟨0, []⟩⟩,
   st.sched.sources.map ReleaseAct.stopSource
     ++ (if st.processor then [ReleaseAct.disconnectProcessor] else [])
     ++ (if st.sourceNode then [ReleaseAct.disconnectSourceNode] else [])
     ++ (if st.stream then [ReleaseAct.stopMicTracks] else [])
     ++ (if st.inputCtx then [ReleaseAct.closeInputCtx] else [])
     ++ (if st.outputCtx then [ReleaseAct.closeOutputCtx] else []))

/-- `disconnect()` (src/services/liveService.ts): close the session when one
is held, then run `cleanup()`. -/
def disconnectS (st : ServiceState) : ServiceState × List ReleaseAct :=
  ((cleanupS st).1,
   (if st.session then [ReleaseAct.closeSession] else []) ++ (cleanupS st).2)

/-- True exactly on the source-stopping effects. -/
def isStopSource : ReleaseAct → Bool
  | .stopSource _ => true
  | _ => false

/-! ## connect() failure paths -/

/-- Environment facts `connect()` branches on: whether
`navigator.mediaDevices.getUserMedia` exists, whether the microphone
permission is granted, and whether the live API handshake succeeds. -/
structure ConnEnv where
  mediaDevicesSupported : Bool
  permissionGranted : Bool
  handshakeSucceeds : Bool
  deriving DecidableEq

/-- The error message thrown when the capture API is missing. -/
def unsupportedMsg : String :=
  "Microphone access is not supported in this environment (HTTP or no hardware)."

/-- The error message thrown when `getUserMedia` rejects. -/
def micDeniedMsg : String :=
  "Could not access microphone. Please check permissions and ensure a microphone is connected."

/-- Observable events of one `connect()` call, in program order. -/
inductive ConnEvent
  | createdInputCtx
  | createdOutputCtx
  | micAcquired
  | liveConnectAttempt
  | surfacedError (msg : String)
  | ranCleanup
  deriving DecidableEq

/-- `connect(onClose, onError)` (src/services/liveService.ts), started from
a fresh service. The body is one try block: a missing capture API throws
before anything is opened; the two audio contexts are then created; a
`getUserMedia` rejection is rethrown with `micDeniedMsg`; only then is
`ai.live.connect` invoked (`liveConnectAttempt`). The catch handler calls
`onError` (surfacing the message) and then `cleanup()`. The success path
ends with the session handle stored; the asynchronous `onopen` callback
that starts capture is modelled separately. `handshakeMsg` is the message
of the handshake failure, when one occurs. -/
def connectS (env : ConnEnv) (handshakeMsg : String) :
    ServiceState × List ConnEvent :=
  let st0 : ServiceState := ⟨false, false, false, false, false, false, ⟨0, []⟩⟩
  if ¬ env.mediaDevicesSupported then
    ((cleanupS st0).1, [ConnEvent.surfacedError unsupportedMsg, ConnEvent.ranCleanup])
  else
    let st1 : ServiceState := { st0 with inputCtx := true, outputCtx := true }
    if ¬ env.permissionGranted then
      ((cleanupS st1).1,
       [ConnEvent.createdInputCtx, ConnEvent.createdOutputCtx,
        ConnEvent.surfacedError micDeniedMsg, ConnEvent.ranCleanup])
    else
      let st2 : ServiceState := { st1 with stream := true }
      if ¬ env.handshakeSucceeds then
        ((cleanupS st2).1,
         [ConnEvent.createdInputCtx, ConnEvent.createdOutputCtx,
          ConnEvent.micAcquired, ConnEvent.liveConnectAttempt,
          ConnEvent.surfacedError handshakeMsg, ConnEvent.ranCleanup])
      else
        ({ st2 with session := true },
         [ConnEvent.createdInputCtx, ConnEvent.createdOutputCtx,
          ConnEvent.micAcquired, ConnEvent.liveConnectAttempt])

/-! ## App-level voice start (handleVoiceStart in src/App.tsx) -/

/-- Voice status values of the App component. -/
inductive VoiceStatus
  | connecting
  | connected
  | errorStatus
  deriving DecidableEq

/-- The App state consulted and mutated by `handleVoiceStart`:
`activeSessionId` and, for the selected chat session, whether its contact
is the bot; `isVoiceActive`/`voiceStatus`/`voiceErrorMsg` are the voice
call state, and `hasLiveServiceRef` records whether `liveServiceRef`
currently holds a service. -/
structure AppVoiceState where
  activeSessionId : Option String
  selectedContactIsBot : Bool
  isVoiceActive : Bool
  voiceStatus : VoiceStatus
  voiceErrorMsg : String
  hasLiveServiceRef : Bool
  deriving DecidableEq

/-- Observable events of one `handleVoiceStart` call. -/
inductive AppEvent
  | alertShown (msg : String)
  | createdLiveService
  | invokedConnect
  deriving DecidableEq

/-- `handleVoiceStart` (src/App.tsx): returns early when no chat session is
selected; shows an alert when the selected contact is not the bot;
otherwise unconditionally sets the voice state, creates a fresh
`LiveService` (overwriting `liveServiceRef`), and invokes `connect` on it.
There is no check of `isVoiceActive` or of any prior service. -/
def handleVoiceStartS (st : AppVoiceState) : AppVoiceState × List AppEvent :=
  match st.activeSessionId with
  | none => (st, [])
  | some _ =>
      if ¬ st.selectedContactIsBot then
        (st, [AppEvent.alertShown "Voice chat is currently only available with Gemini AI."])
      else
        ({ st with isVoiceActive := true, voiceStatus := VoiceStatus.connecting,
                   voiceErrorMsg := "", hasLiveServiceRef := true },
         [AppEvent.createdLiveService, AppEvent.invokedConnect])

/-! ## Outbound frame path (startAudioInput) -/

/-- The outbound transmission state of `startAudioInput`
(src/services/liveService.ts). Each capture callback runs
`sessionPromise.then(session => session.sendRealtimeInput(...))`: before the
session promise resolves the continuation (carrying its frame) joins the
promise reaction queue in registration order (`pending`); once resolved,
the queued continuations run in order and later frames are sent directly
(`sent`). -/
structure SendState where
  resolved : Bool
  pending : List (List ℕ)
  sent : List (List ℕ)
  deriving DecidableEq

/-- The fresh transmission state: session promise not yet resolved. -/
def initSendState : SendState :=
  ⟨false, [], []⟩

/-- One capture callback handing frame `c` to the promise chain. -/
def sendFrame (st : SendState) (c : List ℕ) : SendState :=
  if st.resolved then { st with sent := st.sent ++ [c] }
  else { st with pending := st.pending ++ [c] }

/-- Resolution of the session promise: all queued continuations run in
registration order. -/
def resolveSession (st : SendState) : SendState :=
  ⟨true, [], st.sent ++ st.pending⟩

/-- A burst of capture callbacks in capture order. -/
def sendMany (st : SendState) (cs : List (List ℕ)) : SendState :=
  cs.foldl sendFrame st

/-! ## Inbound message handling (onmessage / playAudioChunk) -/

/-- Effects a handler run may perform besides mutating the scheduler:
console log lines written, errors surfaced through `onError`, and whether
`cleanup()` ran. The audio branch of `onmessage` and `playAudioChunk`
contain no `console.error`, no `onError` call and no `cleanup()` call, so a
decode exception there propagates with all three empty. -/
structure MsgEffects where
  logs : List String
  surfaced : List String
  cleanups : ℕ
  deriving DecidableEq

/-- Outcome of `playAudioChunk(base64)` (src/services/liveService.ts): the
method first bumps `nextStartTime` to `max(nextStartTime, currentTime)`,
then decodes the base64 text and the PCM bytes; a decode exception
(`failed = true`) aborts before any source is created, leaving the sources
untouched; on success the chunk is scheduled at the bumped time. -/
structure PlayOutcome where
  state : SchedState
  started : Option ℚ
  failed : Bool
  deriving DecidableEq

/-- `playAudioChunk` on base64 input `b64` at output clock `now`, creating
source id `src` on success. -/
def playAudioChunkF (st : SchedState) (now : ℚ) (b64 : List Char) (src : ℕ) :
    PlayOutcome :=
  let t := max st.nextStartTime now
  match atobB b64 with
  | none => ⟨⟨t, st.sources⟩, none, true⟩
  | some bytes =>
      match decodeAudioDataS bytes with
      | none => ⟨⟨t, st.sources⟩, none, true⟩
      | some samples =>
          ⟨⟨t + bufDuration samples.length, st.sources ++ [src]⟩, some t, false⟩

/-- The `onmessage` callback (src/services/liveService.ts) on a message
carrying inline audio `b64` and interruption flag `intr`: it awaits
`playAudioChunk`; an exception there skips the rest of the handler
(including the interruption check) and propagates with no log, no surfaced
error and no cleanup; otherwise an interruption runs `stopAudioPlayback`. -/
def onmessageS (st : SchedState) (now : ℚ) (b64 : Option (List Char))
    (intr : Bool) (src : ℕ) : SchedState × MsgEffects :=
  match b64 with
  | some chunk =>
      let o := playAudioChunkF st now chunk src
      if o.failed then (o.state, ⟨[], [], 0⟩)
      else ((if intr then stopAudioPlaybackS o.state else o.state), ⟨[], [], 0⟩)
  | none =>
      ((if intr then stopAudioPlaybackS st else st), ⟨[], [], 0⟩)

/-! ## Helper lemmas -/

/-- The start time handed to `source.start` is the bumped clock. -/
theorem playAudioChunkS_start (st : SchedState) (now : ℚ) (frames src : ℕ) :
    (playAudioChunkS st now frames src).2 = max st.nextStartTime now := rfl

/-- The post-state keeps `nextStartTime = start + duration`. -/
theorem playAudioChunkS_next (st : SchedState) (now : ℚ) (frames src : ℕ) :
    (playAudioChunkS st now frames src).1.nextStartTime
      = max st.nextStartTime now + bufDuration frames := rfl

/-- A buffer duration is never negative. -/
theorem bufDuration_nonneg (frames : ℕ) : 0 ≤ bufDuration frames := by
  unfold bufDuration; positivity

/-! ## C2: gapless scheduling -/

/-- C2: `playAudioChunk` schedules at `start = max(nextStartTime, outputClockNow)`,
with `end = start + duration` becoming the new `nextStartTime`; consequently
three sequential 0.1 s chunks (2400 frames at 24 kHz) arriving while the
output clock stays at `now` start back-to-back at t0, t0 + 1/10, t0 + 2/10
where t0 is the first start. -/
theorem schedule_gapless (st : SchedState) (now : ℚ) (frames src a b c : ℕ) :
    (playAudioChunkS st now frames src).2 = max st.nextStartTime now ∧
    (playAudioChunkS st now frames src).1.nextStartTime
      = (playAudioChunkS st now frames src).2 + bufDuration frames ∧
    (playAudioChunkS (playAudioChunkS st now 2400 a).1 now 2400 b).2
      = (playAudioChunkS st now 2400 a).2 + 1 / 10 ∧
    (playAudioChunkS (playAudioChunkS (playAudioChunkS st now 2400 a).1 now
        2400 b).1 now 2400 c).2
      = (playAudioChunkS st now 2400 a).2 + 2 / 10 := by
  have hnow : now ≤ max st.nextStartTime now := le_max_right _ _
  have hdur : bufDuration 2400 = 1 / 10 := by
    unfold bufDuration; norm_num
  refine ⟨rfl, rfl, ?_, ?_⟩
  · show max (max st.nextStartTime now + bufDuration 2400) now
        = max st.nextStartTime now + 1 / 10
    rw [hdur]
    exact max_eq_left (by linarith)
  · show max (max (max st.nextStartTime now + bufDuration 2400) now
          + bufDuration 2400) now
        = max st.nextStartTime now + 2 / 10
    rw [hdur]
    rw [max_eq_left (show now ≤ max st.nextStartTime now + 1 / 10 by linarith)]
    rw [max_eq_left
        (show now ≤ max st.nextStartTime now + 1 / 10 + 1 / 10 by linarith)]
    ring

/-! ## C3: interrupt clears the active set but resets the clock to 0 -/

/-- C3 counterexample: with `nextStartTime = 5`, one active source and the
output clock at 7, `stopAudioPlayback` resets `nextStartTime` to 0 — not to
the output clock value 7 as the claim states. -/
theorem interrupt_reset_not_clock_cx :
    (stopAudioPlaybackS ⟨5, [1]⟩).sources = [] ∧
    (stopAudioPlaybackS ⟨5, [1]⟩).nextStartTime = 0 ∧
    (stopAudioPlaybackS ⟨5, [1]⟩).nextStartTime ≠ 7 := by
  refine ⟨rfl, rfl, ?_⟩
  simp [stopAudioPlaybackS]

/-- C3 amended: after `stopAudioPlayback` the active set is empty and
`nextStartTime` is reset to the constant 0, which satisfies
`nextStartTime ≤ outputClockNow` since the output clock is nonnegative
(but is not in general equal to the clock value). -/
theorem interrupt_clears_and_resets (st : SchedState) (now : ℚ) (h : 0 ≤ now) :
    (stopAudioPlaybackS st).sources = [] ∧
    (stopAudioPlaybackS st).nextStartTime = 0 ∧
    (stopAudioPlaybackS st).nextStartTime ≤ now := by
  exact ⟨rfl, rfl, by simpa [stopAudioPlaybackS] using h⟩

/-- Witness for the amended C3 at a concrete state and clock. -/
theorem interrupt_clears_and_resets_witness :
    (stopAudioPlaybackS ⟨5, [1]⟩).sources = [] ∧
    (stopAudioPlaybackS ⟨5, [1]⟩).nextStartTime = 0 ∧
    (stopAudioPlaybackS ⟨5, [1]⟩).nextStartTime ≤ 7 :=
  interrupt_clears_and_resets ⟨5, [1]⟩ 7 (by norm_num)

/-! ## C4: monotonicity of nextStartTime -/

/-- C4 counterexample: `cleanup` is not `interrupt`, yet from
`nextStartTime = 5` it decreases `nextStartTime` (to 0), because `cleanup()`
begins by invoking `stopAudioPlayback()`; so `nextStartTime` is not
non-decreasing across every operation other than an explicit interrupt. -/
theorem cleanup_decreases_next_cx :
    (applySchedOp ⟨5, []⟩ SchedOp.cleanupOp).nextStartTime
      < (SchedState.mk 5 []).nextStartTime ∧
    SchedOp.cleanupOp ≠ SchedOp.interrupt := by
  refine ⟨?_, by simp⟩
  simp [applySchedOp, stopAudioPlaybackS]

/-- C4 amended: `nextStartTime` is non-decreasing across every `schedule`
operation, and is reset to 0 by `interrupt` and equally by `cleanup`
(whose first step is the same `stopAudioPlayback` reset). -/
theorem nextStartTime_monotone (st : SchedState) (now : ℚ) (frames src : ℕ) :
    st.nextStartTime
      ≤ (applySchedOp st (SchedOp.schedule now frames src)).nextStartTime ∧
    (applySchedOp st SchedOp.interrupt).nextStartTime = 0 ∧
    (applySchedOp st SchedOp.cleanupOp).nextStartTime = 0 := by
  refine ⟨?_, rfl, rfl⟩
  have h1 : st.nextStartTime ≤ max st.nextStartTime now := le_max_left _ _
  have h2 : 0 ≤ bufDuration frames := bufDuration_nonneg frames
  calc st.nextStartTime ≤ max st.nextStartTime now := h1
    _ ≤ max st.nextStartTime now + bufDuration frames := by linarith
    _ = (applySchedOp st (SchedOp.schedule now frames src)).nextStartTime := rfl

/-! ## C5: teardown releases each resource exactly once -/

/-- Counting a non-source-stopping effect inside the source-stopping block
yields zero. -/
theorem count_stopSource_map (l : List ℕ) (a : ReleaseAct)
    (ha : isStopSource a = false) :
    (l.map ReleaseAct.stopSource).count a = 0 := by
  refine List.count_eq_zero.mpr ?_
  intro hmem
  rcases List.mem_map.mp hmem with ⟨s, _, rfl⟩
  simp [isStopSource] at ha

/-- The source-stopping block is exactly what `filter isStopSource` keeps. -/
theorem filter_stopSource_map (l : List ℕ) :
    (l.map ReleaseAct.stopSource).filter isStopSource
      = l.map ReleaseAct.stopSource := by
  induction l with
  | nil => rfl
  | cons x xs ih => simp [List.filter, isStopSource, ih]

/-- C5: the first teardown (`disconnect`, which closes the session and runs
`cleanup`) emits each release effect exactly once for each held resource —
one session close iff a session is held, one microphone-track stop iff the
stream is held, one close per audio context held, and one stop per active
output source, in order — and after any teardown every further `cleanup` or
`disconnect` emits no release effect at all and leaves the state fixed. -/
theorem teardown_releases_once (st : ServiceState) :
    ((disconnectS st).2.count ReleaseAct.closeSession
      = if st.session then 1 else 0) ∧
    ((disconnectS st).2.count ReleaseAct.stopMicTracks
      = if st.stream then 1 else 0) ∧
    ((disconnectS st).2.count ReleaseAct.closeInputCtx
      = if st.inputCtx then 1 else 0) ∧
    ((disconnectS st).2.count ReleaseAct.closeOutputCtx
      = if st.outputCtx then 1 else 0) ∧
    ((disconnectS st).2.filter isStopSource
      = st.sched.sources.map ReleaseAct.stopSource) ∧
    cleanupS (cleanupS st).1 = ((cleanupS st).1, []) ∧
    disconnectS (disconnectS st).1 = ((disconnectS st).1, []) ∧
    cleanupS (disconnectS st).1 = ((disconnectS st).1, []) ∧
    (disconnectS (cleanupS st).1).2 = [] := by
  obtain ⟨ses, ic, oc, strm, proc, sn, nst, srcs⟩ := st
  cases ses <;> cases ic <;> cases oc <;> cases strm <;> cases proc <;>
    cases sn <;>
    simp [disconnectS, cleanupS, List.count_append, count_stopSource_map,
          filter_stopSource_map, isStopSource, List.filter_append,
          List.count_cons, List.count_nil]

/-! ## C9: outbound frames — no bounded queue, nothing dropped -/

/-- Frames sent before the session promise resolves all queue as promise
reactions, in capture order. -/
theorem sendMany_unresolved (cs : List (List ℕ)) :
    ∀ p s : List (List ℕ),
      sendMany ⟨false, p, s⟩ cs = ⟨false, p ++ cs, s⟩ := by
  induction cs with
  | nil => intro p s; simp [sendMany]
  | cons c cs ih =>
      intro p s
      show sendMany (sendFrame ⟨false, p, s⟩ c) cs = _
      rw [show sendFrame ⟨false, p, s⟩ c = ⟨false, p ++ [c], s⟩ from rfl, ih]
      simp

/-- Frames sent after resolution are transmitted directly, in order. -/
theorem sendMany_resolved (cs : List (List ℕ)) :
    ∀ p s : List (List ℕ),
      sendMany ⟨true, p, s⟩ cs = ⟨true, p, s ++ cs⟩ := by
  induction cs with
  | nil => intro p s; simp [sendMany]
  | cons c cs ih =>
      intro p s
      show sendMany (sendFrame ⟨true, p, s⟩ c) cs = _
      rw [show sendFrame ⟨true, p, s⟩ c = ⟨true, p, s ++ [c]⟩ from rfl, ih]
      simp

/-- C9 counterexample: the pending frames held while the connection promise
is unresolved are NOT kept in a bounded queue — for every candidate bound B
a burst of B+1 capture callbacks leaves B+1 frames pending, and none is
ever dropped. This negates the claimed bounded-queue/drop-oldest policy. -/
theorem send_queue_unbounded_cx :
    ¬ ∃ B : ℕ, ∀ cs : List (List ℕ),
        (sendMany initSendState cs).pending.length ≤ B := by
  rintro ⟨B, hB⟩
  have h := hB (List.replicate (B + 1) [])
  rw [show initSendState = ⟨false, [], []⟩ from rfl,
      sendMany_unresolved] at h
  simp at h

/-- C9 amended: a capture callback never blocks — each frame is handed to
the promise chain and the callback returns; frames produced before the
session promise resolves are held (unboundedly) as queued promise
reactions and flushed in capture order on resolution, after which frames
are sent directly; no frame is ever dropped and capture order is preserved
end to end. -/
theorem send_preserves_frames (cs ds : List (List ℕ)) :
    (sendMany initSendState cs).pending = cs ∧
    (sendMany initSendState cs).sent = [] ∧
    (sendMany (resolveSession (sendMany initSendState cs)) ds).sent
      = cs ++ ds ∧
    (sendMany (resolveSession (sendMany initSendState cs)) ds).pending = [] := by
  rw [show initSendState = ⟨false, [], []⟩ from rfl, sendMany_unresolved]
  rw [show resolveSession ⟨false, [] ++ cs, []⟩
        = ⟨true, [], [] ++ ([] ++ cs)⟩ from rfl, sendMany_resolved]
  simp

/-! ## C6: capture failures short-circuit before any transport attempt -/

/-- C6: when the environment exposes no capture API or the microphone
permission is denied, `connect` never reaches the live-API call: the event
trace contains no `liveConnectAttempt`, contains exactly one `ranCleanup`
and exactly one surfaced error carrying the corresponding message, and the
final state holds no resource at all. -/
theorem early_failure_no_connect (env : ConnEnv) (msg : String)
    (h : env.mediaDevicesSupported = false ∨ env.permissionGranted = false) :
    ConnEvent.liveConnectAttempt ∉ (connectS env msg).2 ∧
    (connectS env msg).2.count ConnEvent.ranCleanup = 1 ∧
    (connectS env msg).2.count
        (ConnEvent.surfacedError
          (if env.mediaDevicesSupported then micDeniedMsg else unsupportedMsg))
      = 1 ∧
    (connectS env msg).1 = ⟨false, false, false, false, false, false, ⟨0, []⟩⟩ := by
  obtain ⟨sup, perm, hs⟩ := env
  rcases h with h | h <;> subst h
  · simp [connectS, cleanupS, List.count_cons]
  · cases sup <;>
      simp [connectS, cleanupS, List.count_cons, micDeniedMsg, unsupportedMsg]

/-- Witness for C6 in the permission-denied environment. -/
theorem early_failure_no_connect_witness :
    ConnEvent.liveConnectAttempt ∉ (connectS ⟨true, false, true⟩ "x").2 ∧
    (connectS ⟨true, false, true⟩ "x").2.count ConnEvent.ranCleanup = 1 ∧
    (connectS ⟨true, false, true⟩ "x").2.count
        (ConnEvent.surfacedError
          (if (ConnEnv.mk true false true).mediaDevicesSupported then
            micDeniedMsg else unsupportedMsg)) = 1 ∧
    (connectS ⟨true, false, true⟩ "x").1
      = ⟨false, false, false, false, false, false, ⟨0, []⟩⟩ :=
  early_failure_no_connect ⟨true, false, true⟩ "x" (Or.inr rfl)

/-! ## C7: there is no AlreadyActive guard on start -/

/-- C7 counterexample: with a bot chat selected and a voice session already
active (`isVoiceActive = true`, a live service already referenced,
status connected — i.e. not Idle), `handleVoiceStart` does not fail with
any AlreadyActive error: it proceeds to create and connect a fresh
`LiveService`, overwriting the existing reference. -/
theorem voiceStart_no_guard_cx :
    (handleVoiceStartS
        ⟨some "s1", true, true, VoiceStatus.connected, "", true⟩).2
      = [AppEvent.createdLiveService, AppEvent.invokedConnect] ∧
    (handleVoiceStartS
        ⟨some "s1", true, true, VoiceStatus.connected, "", true⟩).1.isVoiceActive
      = true := by
  exact ⟨rfl, rfl⟩

/-- C7 amended: `handleVoiceStart` has no concurrency guard: whenever a chat
session is selected and its contact is the bot, it creates and connects a
new `LiveService` — regardless of `isVoiceActive`, of the prior status and
of any previously referenced service (which is silently overwritten). It
returns without any action only when no chat session is selected, and only
shows an alert when the selected contact is not the bot. -/
theorem voiceStart_proceeds_when_active (st : AppVoiceState) (sid : String)
    (hsid : st.activeSessionId = some sid)
    (hbot : st.selectedContactIsBot = true) :
    (handleVoiceStartS st).2
      = [AppEvent.createdLiveService, AppEvent.invokedConnect] ∧
    (handleVoiceStartS st).1.isVoiceActive = true ∧
    (handleVoiceStartS st).1.hasLiveServiceRef = true ∧
    (handleVoiceStartS st).1.voiceStatus = VoiceStatus.connecting := by
  obtain ⟨a, b, c, d, e, f⟩ := st
  cases hsid
  cases hbot
  exact ⟨rfl, rfl, rfl, rfl⟩

/-- Witness for the amended C7 at a state with a voice call already
active. -/
theorem voiceStart_proceeds_when_active_witness :
    (handleVoiceStartS
        ⟨some "s2", true, true, VoiceStatus.connected, "", true⟩).2
      = [AppEvent.createdLiveService, AppEvent.invokedConnect] ∧
    (handleVoiceStartS
        ⟨some "s2", true, true, VoiceStatus.connected, "", true⟩).1.isVoiceActive
      = true ∧
    (handleVoiceStartS
        ⟨some "s2", true, true, VoiceStatus.connected, "", true⟩).1.hasLiveServiceRef
      = true ∧
    (handleVoiceStartS
        ⟨some "s2", true, true, VoiceStatus.connected, "", true⟩).1.voiceStatus
      = VoiceStatus.connecting :=
  voiceStart_proceeds_when_active
    ⟨some "s2", true, true, VoiceStatus.connected, "", true⟩ "s2" rfl rfl

/-! ## C8: malformed inbound chunks -/

/-- C8 counterexample: the one-byte chunk transported as the base64 text
QQ== decodes to an odd-length buffer, so `decodeAudioData` throws
(`failed = true`); but the handler writes no log line, surfaces no error
and runs no cleanup — the offending chunk is dropped silently (the
exception escapes the handler as an unhandled rejection), contradicting
the claim that the skipped chunk is logged with a PlaybackError. -/
theorem malformed_chunk_cx :
    (playAudioChunkF ⟨0, []⟩ 0 ['Q', 'Q', '=', '='] 0).failed = true ∧
    (onmessageS ⟨0, []⟩ 0 (some ['Q', 'Q', '=', '=']) false 0).2.logs = [] ∧
    (onmessageS ⟨0, []⟩ 0 (some ['Q', 'Q', '=', '=']) false 0).2.surfaced = []
      := by
  refine ⟨by decide, ?_, ?_⟩
  · decide
  · decide

/-- C8 amended: on a chunk whose decode fails, the handler aborts without
creating a source: the active set is unchanged (the chunk is skipped), the
only state change is the clock bump `nextStartTime = max(nextStartTime,
now)` performed before decoding, and no log is written, no error surfaced
and no cleanup run — the session continues (even a pending interruption
flag on the same message goes unprocessed, since the exception aborts the
handler first). -/
theorem malformed_chunk_skipped (st : SchedState) (now : ℚ) (b64 : List Char)
    (src : ℕ) (intr : Bool)
    (h : (playAudioChunkF st now b64 src).failed = true) :
    (onmessageS st now (some b64) intr src).1.sources = st.sources ∧
    (onmessageS st now (some b64) intr src).1.nextStartTime
      = max st.nextStartTime now ∧
    (onmessageS st now (some b64) intr src).2 = ⟨[], [], 0⟩ := by
  unfold onmessageS
  unfold playAudioChunkF at h ⊢
  cases hA : atobB b64 with
  | none => simp [hA]
  | some bytes =>
      cases hD : decodeAudioDataS bytes with
      | none => simp [hA, hD]
      | some samples => simp [hA, hD] at h

/-- Witness for the amended C8 at the concrete malformed chunk QQ==. -/
theorem malformed_chunk_skipped_witness :
    (onmessageS ⟨0, []⟩ 0 (some ['Q', 'Q', '=', '=']) false 0).1.sources
      = (SchedState.mk 0 []).sources ∧
    (onmessageS ⟨0, []⟩ 0 (some ['Q', 'Q', '=', '=']) false 0).1.nextStartTime
      = max (SchedState.mk 0 []).nextStartTime 0 ∧
    (onmessageS ⟨0, []⟩ 0 (some ['Q', 'Q', '=', '=']) false 0).2 = ⟨[], [], 0⟩ :=
  malformed_chunk_skipped ⟨0, []⟩ 0 ['Q', 'Q', '=', '='] 0 false (by decide)

/-! ## C1: quantization truncates and wraps -/

/-- Truncation toward zero differs from its argument by less than 1. -/
theorem ratTrunc_abs_lt (x : ℚ) : |(ratTrunc x : ℚ) - x| < 1 := by
  unfold ratTrunc
  by_cases h : 0 ≤ x
  · rw [if_pos h, abs_lt]
    have hf1 := Int.sub_one_lt_floor x
    have hf2 := Int.floor_le x
    constructor <;> linarith
  · rw [if_neg h, abs_lt]
    push_neg at h
    have hc1 := Int.le_ceil x
    have hc2 := Int.ceil_lt_add_one x
    constructor <;> linarith

/-- Truncation toward zero of a value in [-32768, 32768) lands in the int16
range. -/
theorem ratTrunc_range (x : ℚ) (h1 : -32768 ≤ x) (h2 : x < 32768) :
    -32768 ≤ ratTrunc x ∧ ratTrunc x ≤ 32767 := by
  unfold ratTrunc
  by_cases h : 0 ≤ x
  · rw [if_pos h]
    have hf : (⌊x⌋ : ℚ) ≤ x := Int.floor_le x
    have h0 : 0 ≤ ⌊x⌋ := Int.floor_nonneg.mpr h
    have hq : (⌊x⌋ : ℚ) < 32768 := lt_of_le_of_lt hf h2
    have hz : ⌊x⌋ < 32768 := by exact_mod_cast hq
    omega
  · rw [if_neg h]
    push_neg at h
    have hc : x ≤ (⌈x⌉ : ℚ) := Int.le_ceil x
    have h0 : ⌈x⌉ ≤ 0 := Int.ceil_le.mpr (by simpa using h.le)
    have hq : (-32768 : ℚ) ≤ (⌈x⌉ : ℚ) := le_trans h1 hc
    have hz : (-32768 : ℤ) ≤ ⌈x⌉ := by exact_mod_cast hq
    omega

/-- ToInt16 wrap-around is the identity on the int16 range. -/
theorem wrapInt16_eq_self (m : ℤ) (h1 : -32768 ≤ m) (h2 : m ≤ 32767) :
    wrapInt16 m = m := by
  show (if m % 65536 < 32768 then m % 65536 else m % 65536 - 65536) = m
  split <;> omega

/-- C1 counterexample: the claim fails at the boundary and in the rounding
mode. At s = 1 the stored value `1 * 32768` wraps to -32768 (it is not
clamped to 32767), and the decoded value -1 misses s = 1 by 2, far beyond
the claimed 1/32768 bound; and at s = 3/65536 the code truncates 1.5 to 1
where the claimed round(s * 32768) is 2. -/
theorem sample_quantize_cx :
    encodeSample 1 = -32768 ∧
    ¬ |decodeSample (encodeSample 1) - 1| ≤ 1 / 32768 ∧
    encodeSample (3 / 65536) = 1 ∧
    round ((3 : ℚ) / 65536 * 32768) = 2 := by
  have htr1 : ratTrunc ((1 : ℚ) * 32768) = 32768 := by
    unfold ratTrunc
    rw [if_pos (by norm_num)]
    rw [show ((1 : ℚ) * 32768) = ((32768 : ℤ) : ℚ) by norm_num,
        Int.floor_intCast]
  have henc1 : encodeSample 1 = -32768 := by
    unfold encodeSample
    rw [htr1]
    decide
  have htr2 : ratTrunc ((3 : ℚ) / 65536 * 32768) = 1 := by
    unfold ratTrunc
    rw [if_pos (by norm_num)]
    rw [show ((3 : ℚ) / 65536 * 32768) = 3 / 2 by norm_num]
    rw [Int.floor_eq_iff]
    norm_num
  have henc2 : encodeSample (3 / 65536) = 1 := by
    unfold encodeSample
    rw [htr2]
    decide
  refine ⟨henc1, ?_, henc2, ?_⟩
  · rw [henc1]
    unfold decodeSample
    norm_num
  · rw [round_eq]
    rw [show ((3 : ℚ) / 65536 * 32768 + 1 / 2) = ((2 : ℤ) : ℚ) by norm_num,
        Int.floor_intCast]

/-- C1 amended: the capture encoder quantizes by truncation toward zero of
s * 32768 (not rounding), with ECMAScript ToInt16 wrap-around rather than
clamping at the int16 boundary; for every sample s with -1 ≤ s < 1 the
truncated value already lies in the int16 range, so no wrap occurs and the
playback decode recovers s within 1/32768 absolute error. (At s = 1 the
value wraps, see the counterexample.) -/
theorem sample_roundtrip_trunc (s : ℚ) (h1 : -1 ≤ s) (h2 : s < 1) :
    encodeSample s = ratTrunc (s * 32768) ∧
    |decodeSample (encodeSample s) - s| < 1 / 32768 := by
  have hx1 : -32768 ≤ s * 32768 := by linarith
  have hx2 : s * 32768 < 32768 := by linarith
  obtain ⟨hr1, hr2⟩ := ratTrunc_range (s * 32768) hx1 hx2
  have henc : encodeSample s = ratTrunc (s * 32768) :=
    wrapInt16_eq_self _ hr1 hr2
  refine ⟨henc, ?_⟩
  rw [henc]
  have habs := ratTrunc_abs_lt (s * 32768)
  rw [abs_lt] at habs ⊢
  obtain ⟨ha, hb⟩ := habs
  unfold decodeSample
  constructor <;> [linarith; linarith]

/-- Witness for the amended C1 at s = 1/2. -/
theorem sample_roundtrip_trunc_witness :
    encodeSample (1 / 2) = ratTrunc (1 / 2 * 32768) ∧
    |decodeSample (encodeSample (1 / 2)) - 1 / 2| < 1 / 32768 :=
  sample_roundtrip_trunc (1 / 2) (by norm_num) (by norm_num)

/-! ## C10: base64 round trip -/

/-- The wrappers of src/services/liveService.ts: `encode` turns the bytes
into a binary string (char code = byte value, exact since every byte is
below 256) and applies `btoa`; `decode` applies `atob` and reads the char
codes back. At the byte level they are `btoaB` and `atobB`. -/
def encodeB64 (bytes : List ℕ) : List Char :=
  btoaB bytes

/-- Byte-level model of `decode` (src/services/liveService.ts). -/
def decodeB64 (s : List Char) : Option (List ℕ) :=
  atobB s

/-- Alphabet lookup inverts alphabet indexing. -/
theorem charVal_b64Char : ∀ n : ℕ, n < 64 → charVal (b64Char n) = some n := by
  decide

/-- Alphabet characters are never the padding character. -/
theorem b64Char_ne_pad : ∀ n : ℕ, n < 64 → b64Char n ≠ '=' := by
  decide

/-- Base64 decoding inverts base64 encoding on byte lists. -/
theorem atobB_btoaB (bs : List ℕ) :
    (∀ b ∈ bs, b < 256) → atobB (btoaB bs) = some bs := by
  induction bs using btoaB.induct with
  | case1 => intro _; rfl
  | case2 b0 =>
      intro h
      have hb0 : b0 < 256 := h b0 (by simp)
      have h0 : b0 / 4 < 64 := by omega
      have h1 : b0 % 4 * 16 < 64 := by omega
      simp only [btoaB, atobB, charVal_b64Char _ h0, charVal_b64Char _ h1]
      simp
      all_goals omega
  | case3 b0 b1 =>
      intro h
      have hb0 : b0 < 256 := h b0 (by simp)
      have hb1 : b1 < 256 := h b1 (by simp)
      have h0 : b0 / 4 < 64 := by omega
      have h1 : b0 % 4 * 16 + b1 / 16 < 64 := by omega
      have h2 : b1 % 16 * 4 < 64 := by omega
      simp only [btoaB, atobB, charVal_b64Char _ h0, charVal_b64Char _ h1,
                 charVal_b64Char _ h2]
      rw [if_neg (b64Char_ne_pad _ h2)]
      simp
      all_goals omega
  | case4 b0 b1 b2 rest ih =>
      intro h
      have hb0 : b0 < 256 := h b0 (by simp)
      have hb1 : b1 < 256 := h b1 (by simp)
      have hb2 : b2 < 256 := h b2 (by simp)
      have h0 : b0 / 4 < 64 := by omega
      have h1 : b0 % 4 * 16 + b1 / 16 < 64 := by omega
      have h2 : b1 % 16 * 4 + b2 / 64 < 64 := by omega
      have h3 : b2 % 64 < 64 := by omega
      have key : atobB (btoaB rest) = some rest :=
        ih (fun b hb => h b (by simp [hb]))
      simp only [btoaB, atobB, charVal_b64Char _ h0, charVal_b64Char _ h1,
                 charVal_b64Char _ h2, charVal_b64Char _ h3, key]
      rw [if_neg (b64Char_ne_pad _ h2), if_neg (b64Char_ne_pad _ h3)]
      simp
      all_goals omega

/-- C10: the base64 text encoding used for outbound frames and the base64
decoding used for inbound frames are mutually inverse on byte arrays:
`decode(encode(b)) = b` for every byte list b (bytes below 256, as a
`Uint8Array` guarantees). -/
theorem decode_encode_roundtrip (bs : List ℕ) (h : ∀ b ∈ bs, b < 256) :
    decodeB64 (encodeB64 bs) = some bs :=
  atobB_btoaB bs h

/-- Witness for C10 at a concrete byte list. -/
theorem decode_encode_roundtrip_witness :
    decodeB64 (encodeB64 [0, 77, 255]) = some [0, 77, 255] :=
  decode_encode_roundtrip [0, 77, 255] (by decide)
